import Mathlib

/-!
# Verification of `scripts/check_review.py`

A shallow embedding of the documentation-freshness checker.  The script
iterates over a fixed list of target paths; for each existing target it reads
the file, extracts a `作成日`/`Last Updated` date marker with the regex
`(作成日|Last Updated)\s*[:：]\s*(\d{4}[-年]\d{2}[-月]\d{2})`, normalizes the
matched date to ISO form, parses it with `datetime.fromisoformat`, falls back
to the file's modification time when no valid marker is found, and reports any
target older than `MAX_AGE_DAYS = 7` days (or missing) with exit code 1.

Texts are modelled as `List Char`; file system state as a function from path
strings to a `FileState` record; Python exceptions as `Except`.
-/

namespace CheckReview

/-- Model of Python's `re` class `\d` restricted to the ASCII digits `0`-`9`.
(Python's `\d` additionally matches non-ASCII Unicode decimal digits; no input
relevant to the checker contains those, and no claim depends on them.) -/
def isPyDigit (c : Char) : Bool := c.isDigit

/-- Model of Python's `re` class `\s` restricted to ASCII whitespace
`[ \t\n\r\x0b\x0c]`.  (Python's `\s` additionally matches some non-ASCII
Unicode whitespace; no claim depends on those.) -/
def isPySpace (c : Char) : Bool :=
  c == ' ' || c == '\t' || c == '\n' || c == '\r' || c == '\x0b' || c == '\x0c'

/-- The first regex alternative label `作成日`. -/
def labelJP : List Char := ['作', '成', '日']

/-- The second regex alternative label `Last Updated`. -/
def labelEN : List Char := "Last Updated".toList

/-- Greedy `\s*`: drop the maximal run of whitespace characters.  Greediness
is deterministic in `ISO_PATTERN` because the character required after each
`\s*` (a colon or a digit) is never itself whitespace. -/
def dropSpaces : List Char → List Char
  | [] => []
  | c :: cs => if isPySpace c then dropSpaces cs else c :: cs

/-- First date separator class `[-年]`. -/
def isSep1 (c : Char) : Bool := c == '-' || c == '年'

/-- Second date separator class `[-月]`. -/
def isSep2 (c : Char) : Bool := c == '-' || c == '月'

/-- Match the date token `\d{4}[-年]\d{2}[-月]\d{2}` (capture group 2 of
`ISO_PATTERN`) at the head of the input; on success return the ten matched
characters and the remaining input. -/
def matchDate (cs : List Char) : Option (List Char × List Char) :=
  match cs with
  | y1 :: y2 :: y3 :: y4 :: s1 :: m1 :: m2 :: s2 :: d1 :: d2 :: rest =>
    if isPyDigit y1 && isPyDigit y2 && isPyDigit y3 && isPyDigit y4 &&
       isSep1 s1 && isPyDigit m1 && isPyDigit m2 &&
       isSep2 s2 && isPyDigit d1 && isPyDigit d2 then
      some ([y1, y2, y3, y4, s1, m1, m2, s2, d1, d2], rest)
    else none
  | _ => none

/-- Match the label alternation `(作成日|Last Updated)` at the head of the
input (alternatives tried left to right, as Python does; they share no prefix,
so at most one can match).  Returns the input after the label. -/
def matchLabel (cs : List Char) : Option (List Char) :=
  if cs.take 3 = labelJP then some (cs.drop 3)
  else if cs.take 12 = labelEN then some (cs.drop 12)
  else none

/-- Match the colon-like separator class `[:：]` at the head of the input and
consume the following `\s*`. -/
def matchSep : List Char → Option (List Char)
  | [] => none
  | c :: r3 => if c == ':' || c == '：' then some (dropSpaces r3) else none

/-- Attempt to match the whole of `ISO_PATTERN` starting exactly at the head
of `cs`; on success return capture group 2 (the raw date token).  Backtracking
never helps this pattern (see `dropSpaces`), so the match is deterministic. -/
def matchAt (cs : List Char) : Option (List Char) :=
  (matchLabel cs).bind fun r1 =>
    (matchSep (dropSpaces r1)).bind fun r4 =>
      (matchDate r4).map Prod.fst

/-- Model of `ISO_PATTERN.search`: try to match at each position from left to
right and return capture group 2 of the first (leftmost) match. -/
def searchISO : List Char → Option (List Char)
  | [] => none
  | c :: cs =>
    match matchAt (c :: cs) with
    | some raw => some raw
    | none => searchISO cs

/-- Python `str.replace(a, b)` for one-character `a`, `b`. -/
def pyReplace (cs : List Char) (a b : Char) : List Char :=
  cs.map fun c => if c = a then b else c

/-- Python `str.replace(a, '')` for a one-character `a`. -/
def pyDelete (cs : List Char) (a : Char) : List Char :=
  cs.filter fun c => c ≠ a

/-- `raw.replace('年', '-').replace('月', '-').replace('日', '')`. -/
def normalizeRaw (cs : List Char) : List Char :=
  pyDelete (pyReplace (pyReplace cs '年' '-') '月' '-') '日'

/-- Numeric value of an ASCII digit. -/
def digitVal (c : Char) : Nat := c.toNat - '0'.toNat

/-- Proleptic Gregorian leap-year test, as used by Python `datetime`. -/
def isLeapYear (y : Nat) : Bool :=
  y % 4 == 0 && (y % 100 != 0 || y % 400 == 0)

/-- Number of days in month `m` of year `y`. -/
def daysInMonth (y m : Nat) : Nat :=
  if m = 2 then (if isLeapYear y then 29 else 28)
  else if m = 4 || m = 6 || m = 9 || m = 11 then 30
  else 31

/-- Model of `datetime.fromisoformat` restricted to ten-character
`YYYY-MM-DD` inputs, the only shape reachable here (every normalized capture
of `ISO_PATTERN` has exactly that shape).  Returns the calendar date
`(year, month, day)` when the string denotes a valid date with
`MINYEAR = 1 ≤ year`, otherwise `none` (modelling the raised `ValueError`). -/
def parseISODate (cs : List Char) : Option (Nat × Nat × Nat) :=
  match cs with
  | [y1, y2, y3, y4, c1, m1, m2, c2, d1, d2] =>
    if isPyDigit y1 && isPyDigit y2 && isPyDigit y3 && isPyDigit y4 &&
       c1 == '-' && isPyDigit m1 && isPyDigit m2 &&
       c2 == '-' && isPyDigit d1 && isPyDigit d2 then
      let y := 1000 * digitVal y1 + 100 * digitVal y2 + 10 * digitVal y3 + digitVal y4
      let m := 10 * digitVal m1 + digitVal m2
      let d := 10 * digitVal d1 + digitVal d2
      if 1 ≤ y && 1 ≤ m && m ≤ 12 && 1 ≤ d && d ≤ daysInMonth y m then
        some (y, m, d)
      else none
    else none
  | _ => none

/-- `§4.1` date-marker extraction as a whole: first regex match, normalized
and calendar-validated; `none` is "no marker found". -/
def extractDate (text : List Char) : Option (Nat × Nat × Nat) :=
  match searchISO text with
  | some raw => parseISODate (normalizeRaw raw)
  | none => none

/-- Days since 1970-01-01 of the proleptic Gregorian date `y-m-d`, for
`1 ≤ y`, `1 ≤ m ≤ 12`, `1 ≤ d` (Hinnant's `days_from_civil`, specialised to
the nonnegative-year range reachable from a four-digit year). -/
def daysFromCivil (y m d : Nat) : Int :=
  let yAdj : Nat := if m ≤ 2 then y - 1 else y
  let era : Nat := yAdj / 400
  let yoe : Nat := yAdj % 400
  let mp : Nat := (m + 9) % 12
  let doy : Nat := (153 * mp + 2) / 5 + d - 1
  let doe : Nat := yoe * 365 + yoe / 4 - yoe / 100 + doy
  (Int.ofNat (era * 146097 + doe)) - 719468

/-- Model of a Python `datetime` as used by the script.  `secs` is the
wall-clock reading of the value, expressed as seconds since the Unix epoch
when that wall clock is read as UTC; `tz` is `some ()` for an aware value
carrying `timezone.utc` and `none` for a naive value.  This is faithful here
because UTC is the only time zone in the program and a naive value is only
ever made aware by `replace(tzinfo=timezone.utc)`, which keeps the wall clock
and hence `secs`. -/
structure PyDatetime where
  secs : Int
  tz : Option Unit
deriving DecidableEq, Repr

/-- `datetime.fromisoformat('YYYY-MM-DD')`: a naive datetime at midnight of
the given calendar date. -/
def fromisoformatDate (y m d : Nat) : PyDatetime :=
  { secs := 86400 * daysFromCivil y m d, tz := none }

/-- `datetime.fromtimestamp(t, tz=timezone.utc)`: an aware UTC datetime at
epoch second `t`. -/
def fromtimestampUTC (t : Int) : PyDatetime :=
  { secs := t, tz := some () }

/-- `dt.replace(tzinfo=timezone.utc)`. -/
def replaceTzUTC (dt : PyDatetime) : PyDatetime :=
  { secs := dt.secs, tz := some () }

/-- The aware UTC datetime at midnight of calendar date `y-m-d`. -/
def midnightUTC (y m d : Nat) : PyDatetime :=
  { secs := 86400 * daysFromCivil y m d, tz := some () }

/-- The expression `last if last.tzinfo else last.replace(tzinfo=timezone.utc)`
from `main`. -/
def normalizeTz (dt : PyDatetime) : PyDatetime :=
  if dt.tz.isSome then dt else replaceTzUTC dt

/-- The one-per-run state of a path on disk: whether `Path.exists()` is true,
whether `read_text` succeeds, the decoded content, and `stat().st_mtime` in
whole seconds. -/
structure FileState where
  pexists : Bool
  readable : Bool
  content : List Char
  mtime : Int
deriving DecidableEq, Repr

/-- A Python `OSError`/`UnicodeDecodeError` escaping `read_text`. -/
inductive IOErr where
  | ioError
deriving DecidableEq, Repr

/-- `p.read_text(encoding='utf-8')`: the content, or a raised error. -/
def readText (f : FileState) : Except IOErr (List Char) :=
  if f.readable then Except.ok f.content else Except.error IOErr.ioError

/-- `MAX_AGE_DAYS = 7`. -/
def MAX_AGE_DAYS : Nat := 7

/-- `TARGETS`, in declaration order. -/
def TARGETS : List String :=
  [".github/copilot-instructions.md", "docs/operation-scenarios.md"]

/-- The reason string `f'>{MAX_AGE_DAYS}d old'`. -/
def reasonStale : String := ">" ++ toString MAX_AGE_DAYS ++ "d old"

/-- `get_last_updated(p)`: read the text (a read failure propagates), search
for `ISO_PATTERN`, normalize and parse the first match; a parse failure is
swallowed by `except Exception: pass`; with no usable marker fall back to the
aware UTC modification time. -/
def get_last_updated (f : FileState) : Except IOErr PyDatetime :=
  match readText f with
  | Except.error e => Except.error e
  | Except.ok text =>
    match searchISO text with
    | some raw =>
      match parseISODate (normalizeRaw raw) with
      | some ymd => Except.ok (fromisoformatDate ymd.1 ymd.2.1 ymd.2.2)
      | none => Except.ok (fromtimestampUTC f.mtime)
    | none => Except.ok (fromtimestampUTC f.mtime)

/-- One iteration of the loop in `main` for target `t` in state `f`: a missing
target contributes `(t, 'missing')` without the file being opened; otherwise
the timestamp is resolved (an I/O error propagates), normalized to UTC, and
the target contributes `(t, '>7d old')` when strictly older than
`MAX_AGE_DAYS` days, else nothing. -/
def checkTarget (now : Int) (t : String) (f : FileState) :
    Except IOErr (List (String × String)) :=
  if f.pexists = false then Except.ok [(t, "missing")]
  else
    match get_last_updated f with
    | Except.error e => Except.error e
    | Except.ok last =>
      if now - (normalizeTz last).secs > (MAX_AGE_DAYS : Int) * 86400 then
        Except.ok [(t, reasonStale)]
      else Except.ok []

/-- The loop of `main` over a target list: per-target contributions are
appended in declaration order; a raised error aborts the remaining
iterations. -/
def runScan (now : Int) (fs : String → FileState) :
    List String → Except IOErr (List (String × String))
  | [] => Except.ok []
  | t :: ts =>
    match checkTarget now t (fs t) with
    | Except.error e => Except.error e
    | Except.ok v =>
      match runScan now fs ts with
      | Except.error e => Except.error e
      | Except.ok rest => Except.ok (v ++ rest)

/-- What a completed run prints and which status it exits with. -/
structure RunResult where
  output : List String
  exitCode : Nat
deriving DecidableEq, Repr

/-- The reporting tail of `main`: a non-empty violation list prints the header
and one line per violation and exits 1; an empty list prints the success line
and exits 0. -/
def report (stale : List (String × String)) : RunResult :=
  if stale = [] then
    { output := ["All target files are fresh enough."], exitCode := 0 }
  else
    { output := "STALE files detected:" ::
        stale.map (fun v => "- " ++ v.1 ++ ": " ++ v.2),
      exitCode := 1 }

/-- `main()`: scan `TARGETS` at current time `now` over file-system state
`fs`, then report; an uncaught error aborts the run (Python exits non-zero
with a traceback). -/
def pyMain (now : Int) (fs : String → FileState) : Except IOErr RunResult :=
  match runScan now fs TARGETS with
  | Except.error e => Except.error e
  | Except.ok stale => Except.ok (report stale)

/-- Recognizer for the date-token shape `\d{4}[-年]\d{2}[-月]\d{2}`. -/
def isDateToken (cs : List Char) : Bool :=
  match cs with
  | [y1, y2, y3, y4, s1, m1, m2, s2, d1, d2] =>
    isPyDigit y1 && isPyDigit y2 && isPyDigit y3 && isPyDigit y4 &&
    isSep1 s1 && isPyDigit m1 && isPyDigit m2 &&
    isSep2 s2 && isPyDigit d1 && isPyDigit d2
  | _ => false

/-- Spec-side reading (for comparison with the source behaviour, not taken
from the source): a marker in which the label is *immediately* followed by
the colon-like separator, which is *immediately* followed by the date token,
with no intervening whitespace — tested at one position. -/
def immediateAt (cs : List Char) : Bool :=
  match matchLabel cs with
  | none => false
  | some r1 =>
    match r1 with
    | [] => false
    | c :: r3 => (c == ':' || c == '：') && (matchDate r3).isSome

/-- Spec-side reading (for comparison with the source behaviour): the text
contains, at some position, a label immediately followed by a separator
immediately followed by a date token. -/
def specImmediateMarker : List Char → Bool
  | [] => false
  | c :: cs => immediateAt (c :: cs) || specImmediateMarker cs

/-! ### Concrete states used by counterexamples and witnesses -/

/-- An existing readable file carrying `Last Updated: 2024-01-01`. -/
def fileISO : FileState :=
  { pexists := true, readable := true,
    content := "Last Updated: 2024-01-01".toList, mtime := 0 }

/-- An existing readable file whose first marker match has an invalid
calendar date, followed by a later valid marker. -/
def fileBadDate : FileState :=
  { pexists := true, readable := true,
    content := "作成日: 2024-13-40 and Last Updated: 2024-01-01".toList,
    mtime := 42 }

/-- An existing file whose content cannot be read. -/
def fileUnreadable : FileState :=
  { pexists := true, readable := false, content := [], mtime := 0 }

/-- A file system in which no path exists. -/
def fsAllMissing : String → FileState :=
  fun _ => { pexists := false, readable := true, content := ['x'], mtime := 5 }

/-- A file system in which every path exists but cannot be read. -/
def fsUnreadable : String → FileState := fun _ => fileUnreadable

/-- The violation list produced by scanning `TARGETS` when every path is
missing. -/
def vsMissing : List (String × String) :=
  [(".github/copilot-instructions.md", "missing"),
   ("docs/operation-scenarios.md", "missing")]

/-! ### Claims -/

/-- Claim C1, counterexample: the claim's example input `Created: 2024-01-01`
does not resolve to any calendar date — `Created` is not in the label
alternation `(作成日|Last Updated)`, so extraction finds no marker and
`get_last_updated` falls back to the modification time. -/
theorem c1_counterexample :
    extractDate "Created: 2024-01-01".toList = none ∧
    get_last_updated
        { pexists := true, readable := true,
          content := "Created: 2024-01-01".toList, mtime := 5 } =
      Except.ok (fromtimestampUTC 5) :=
  ⟨rfl, rfl⟩

/-- Claim C1, amended: the supported label vocabularies are `Last Updated`
and `作成日` (not `Created`); with either label and either date-separator
style, extraction resolves the same calendar date — all four combinations of
label and separator style for January 1, 2024 resolve to 2024-01-01. -/
theorem c1_theorem :
    extractDate "Last Updated: 2024-01-01".toList = some (2024, 1, 1) ∧
    extractDate "作成日: 2024年01月01日".toList = some (2024, 1, 1) ∧
    extractDate "Last Updated: 2024年01月01日".toList = some (2024, 1, 1) ∧
    extractDate "作成日: 2024-01-01".toList = some (2024, 1, 1) :=
  ⟨rfl, rfl, rfl, rfl⟩

/-- Claim C10: date tokens mixing the two separator conventions are accepted,
each separator position independently admitting the ASCII or the localized
character, and all four combinations normalize to the same calendar date. -/
theorem c10_theorem :
    extractDate "作成日: 2024-01月02".toList = some (2024, 1, 2) ∧
    extractDate "作成日: 2024年01-02".toList = some (2024, 1, 2) ∧
    extractDate "作成日: 2024-01-02".toList = some (2024, 1, 2) ∧
    extractDate "作成日: 2024年01月02日".toList = some (2024, 1, 2) :=
  ⟨rfl, rfl, rfl, rfl⟩

/-- Claim C2, counterexample: for a file carrying the marker
`Last Updated: 2024-01-01`, `get_last_updated` returns the parsed timestamp
*naive* (`tz = none`): UTC is not attached immediately after the value is
obtained, contradicting "never a naive timestamp". -/
theorem c2_counterexample :
    get_last_updated fileISO = Except.ok (fromisoformatDate 2024 1 1) ∧
    (fromisoformatDate 2024 1 1).tz = none :=
  ⟨rfl, rfl⟩

/-- Claim C2, amended: for every readable file whose content carries a
recognized valid date marker, `get_last_updated` returns the *naive*
timestamp at that calendar date, midnight; `main` attaches UTC to it before
the age comparison, so the timestamp actually compared equals that calendar
date at midnight UTC. -/
theorem c2_theorem (f : FileState) (y m d : Nat)
    (hr : f.readable = true) (he : extractDate f.content = some (y, m, d)) :
    get_last_updated f = Except.ok (fromisoformatDate y m d) ∧
    (fromisoformatDate y m d).tz = none ∧
    normalizeTz (fromisoformatDate y m d) = midnightUTC y m d := by
  refine ⟨?_, rfl, rfl⟩
  unfold extractDate at he
  unfold get_last_updated readText
  rw [hr]
  cases hs : searchISO f.content with
  | none => rw [hs] at he; cases he
  | some raw =>
    rw [hs] at he
    change parseISODate (normalizeRaw raw) = some (y, m, d) at he
    simp only [if_true, hs, he]

/-- Claim C2, witness: the amended theorem applied to the concrete file
`fileISO` carrying `Last Updated: 2024-01-01`. -/
theorem c2_witness :
    get_last_updated fileISO = Except.ok (fromisoformatDate 2024 1 1) ∧
    (fromisoformatDate 2024 1 1).tz = none ∧
    normalizeTz (fromisoformatDate 2024 1 1) = midnightUTC 2024 1 1 :=
  c2_theorem fileISO 2024 1 1 rfl rfl

/-- Claim C9, counterexample: `Last Updated : 2024-01-01` — where the label
is followed by a space, not immediately by the separator — is still
recognized (the regex permits `\s*` around the separator), while the claim's
immediate-adjacency reading finds no marker in this text. -/
theorem c9_counterexample :
    extractDate "Last Updated : 2024-01-01".toList = some (2024, 1, 1) ∧
    specImmediateMarker "Last Updated : 2024-01-01".toList = false :=
  ⟨rfl, by decide⟩

/-- The f-string `f'>{MAX_AGE_DAYS}d old'` evaluates to the literal
`>7d old`. -/
lemma reasonStale_eq : reasonStale = ">7d old" := by decide

/-- Claim C3: with a resolved timestamp in hand, a target is recorded as a
stale violation iff `now` minus the UTC-normalized timestamp strictly exceeds
7 days (in seconds); at exactly 7 days the target contributes no violation. -/
theorem c3_theorem (now : Int) (t : String) (f : FileState) (last : PyDatetime)
    (hex : f.pexists = true) (hlast : get_last_updated f = Except.ok last) :
    (checkTarget now t f = Except.ok [(t, ">7d old")] ↔
      now - (normalizeTz last).secs > 7 * 86400) ∧
    (now - (normalizeTz last).secs = 7 * 86400 →
      checkTarget now t f = Except.ok []) := by
  have h7 : (MAX_AGE_DAYS : Int) * 86400 = 7 * 86400 := rfl
  unfold checkTarget
  rw [hex, hlast, reasonStale_eq, h7]
  simp only [Bool.false_eq_true, if_false]
  constructor
  · by_cases hc : now - (normalizeTz last).secs > 7 * 86400 <;> simp [hc] <;> omega
  · intro hEq
    have hn : ¬ (now - (normalizeTz last).secs > 7 * 86400) := by omega
    rw [if_neg hn]
    simp

/-- Claim C3, witness: the theorem at `fileISO` (marker date 2024-01-01,
epoch day 19723): at exactly 7 days of age no violation is recorded, and one
second past 7 days the `>7d old` violation is recorded. -/
theorem c3_witness :
    checkTarget ((19723 + 7) * 86400) "a" fileISO = Except.ok [] ∧
    checkTarget ((19723 + 7) * 86400 + 1) "a" fileISO =
      Except.ok [("a", ">7d old")] :=
  ⟨(c3_theorem ((19723 + 7) * 86400) "a" fileISO
      (fromisoformatDate 2024 1 1) rfl rfl).2 (by decide),
   (c3_theorem ((19723 + 7) * 86400 + 1) "a" fileISO
      (fromisoformatDate 2024 1 1) rfl rfl).1.mpr (by decide)⟩

/-- Claim C4: a target whose path does not exist contributes exactly the one
violation `(t, 'missing')`; the scan then continues with the remaining
targets; and the outcome is the same for *every* file state with
`pexists = false`, whatever its content, readability or mtime — the file is
never opened. -/
theorem c4_theorem (now : Int) (fs : String → FileState) (t : String)
    (ts : List String) (h : (fs t).pexists = false) :
    checkTarget now t (fs t) = Except.ok [(t, "missing")] ∧
    runScan now fs (t :: ts) =
      (runScan now fs ts).map (fun r => (t, "missing") :: r) ∧
    (∀ f : FileState, f.pexists = false →
      checkTarget now t f = Except.ok [(t, "missing")]) := by
  have hk : ∀ f : FileState, f.pexists = false →
      checkTarget now t f = Except.ok [(t, "missing")] := by
    intro f hf
    unfold checkTarget
    rw [hf]
    rfl
  refine ⟨hk _ h, ?_, hk⟩
  show (match checkTarget now t (fs t) with
    | Except.error e => Except.error e
    | Except.ok v =>
      match runScan now fs ts with
      | Except.error e => Except.error e
      | Except.ok rest => Except.ok (v ++ rest)) = _
  rw [hk _ h]
  cases hr : runScan now fs ts with
  | error e => rfl
  | ok rest => rfl

/-- Claim C4, witness: the theorem over the all-missing file system, target
`a`, remaining targets `[b]`. -/
theorem c4_witness :
    checkTarget 0 "a" (fsAllMissing "a") = Except.ok [("a", "missing")] ∧
    runScan 0 fsAllMissing ["a", "b"] =
      (runScan 0 fsAllMissing ["b"]).map (fun r => ("a", "missing") :: r) ∧
    (∀ f : FileState, f.pexists = false →
      checkTarget 0 "a" f = Except.ok [("a", "missing")]) :=
  c4_theorem 0 fsAllMissing "a" ["b"] rfl

/-- Claim C5: only the first regex match in document order is considered; if
its date token fails calendar validation, extraction yields no marker and
`get_last_updated` falls back to the file's modification time (aware UTC),
without error and without trying any later match. -/
theorem c5_theorem (f : FileState) (raw : List Char)
    (hr : f.readable = true) (hs : searchISO f.content = some raw)
    (hp : parseISODate (normalizeRaw raw) = none) :
    extractDate f.content = none ∧
    get_last_updated f = Except.ok (fromtimestampUTC f.mtime) := by
  constructor
  · unfold extractDate
    rw [hs]
    exact hp
  · unfold get_last_updated readText
    rw [hr]
    simp only [if_true, hs, hp]

/-- Claim C5, witness: the theorem at `fileBadDate`, whose first match is the
invalid `2024-13-40` and which contains a later valid marker
`Last Updated: 2024-01-01`; the result is still the mtime fallback. -/
theorem c5_witness :
    extractDate fileBadDate.content = none ∧
    get_last_updated fileBadDate = Except.ok (fromtimestampUTC 42) :=
  c5_theorem fileBadDate
    ['2', '0', '2', '4', '-', '1', '3', '-', '4', '0'] rfl (by decide) rfl

/-- An existing but unreadable target raises out of `read_text` inside
`get_last_updated`, so `checkTarget` propagates the error. -/
lemma checkTarget_unreadable (now : Int) (t : String) (f : FileState)
    (h1 : f.pexists = true) (h2 : f.readable = false) :
    checkTarget now t f = Except.error IOErr.ioError := by
  unfold checkTarget get_last_updated readText
  rw [h1, h2]
  rfl

/-- Claim C6: an existing target whose content cannot be read is caught
nowhere: its error aborts the entire scan (no violation list is produced for
any target), wherever the target sits in the list. -/
theorem c6_theorem (now : Int) (fs : String → FileState)
    (ts1 ts2 : List String) (t : String)
    (h1 : (fs t).pexists = true) (h2 : (fs t).readable = false) :
    checkTarget now t (fs t) = Except.error IOErr.ioError ∧
    runScan now fs (ts1 ++ t :: ts2) = Except.error IOErr.ioError := by
  have hk := checkTarget_unreadable now t (fs t) h1 h2
  refine ⟨hk, ?_⟩
  induction ts1 with
  | nil => simp only [List.nil_append, runScan, hk]
  | cons a ts ih =>
    simp only [List.cons_append, runScan]
    cases hc : checkTarget now a (fs a) with
    | error e => cases e; rfl
    | ok v =>
      have ih' : runScan now fs (ts.append (t :: ts2)) = Except.error IOErr.ioError := ih
      rw [ih']

/-- Claim C6, witness: the theorem over the all-unreadable file system with
the failing target between two other targets. -/
theorem c6_witness :
    checkTarget 0 "a" (fsUnreadable "a") = Except.error IOErr.ioError ∧
    runScan 0 fsUnreadable (["x"] ++ "a" :: ["y"]) =
      Except.error IOErr.ioError :=
  c6_theorem 0 fsUnreadable ["x"] ["y"] "a" rfl rfl

/-- A successful `checkTarget` contributes the empty list, the one `missing`
entry, or the one `>7d old` entry — nothing else. -/
lemma checkTarget_shape (now : Int) (t : String) (f : FileState)
    (r : List (String × String)) (h : checkTarget now t f = Except.ok r) :
    r = [] ∨ r = [(t, "missing")] ∨ r = [(t, ">7d old")] := by
  unfold checkTarget at h
  split at h
  · right; left
    injection h with h
    exact h.symm
  · split at h
    · cases h
    · rw [reasonStale_eq] at h
      split at h
      · right; right
        injection h with h
        exact h.symm
      · left
        injection h with h
        exact h.symm

/-- A successful scan yields one entry per violating target, in target order:
the first components form a sublist of the target list and every reason is
literally `missing` or `>7d old`. -/
lemma runScan_ok (now : Int) (fs : String → FileState) (ts : List String)
    (vs : List (String × String)) (h : runScan now fs ts = Except.ok vs) :
    (vs.map Prod.fst).Sublist ts ∧
    ∀ v ∈ vs, v.2 = "missing" ∨ v.2 = ">7d old" := by
  induction ts generalizing vs with
  | nil =>
    unfold runScan at h
    injection h with h
    subst h
    simp
  | cons t ts ih =>
    unfold runScan at h
    cases hc : checkTarget now t (fs t) with
    | error e => rw [hc] at h; cases h
    | ok v =>
      rw [hc] at h
      cases hr : runScan now fs ts with
      | error e => rw [hr] at h; cases h
      | ok rest =>
        rw [hr] at h
        injection h with h
        subst h
        obtain ⟨ihs, ihr⟩ := ih rest hr
        constructor
        · rcases checkTarget_shape now t (fs t) v hc with hv | hv | hv <;>
            subst hv <;> simp only [List.map_append, List.map_nil,
              List.nil_append, List.map_cons]
          · exact ihs.cons t
          · exact ihs.cons₂ t
          · exact ihs.cons₂ t
        · intro w hw
          rcases List.mem_append.mp hw with hw | hw
          · rcases checkTarget_shape now t (fs t) v hc with hv | hv | hv <;>
              subst hv <;> simp at hw
            · left; rw [hw]
            · right; rw [hw]
          · exact ihr w hw

/-- Claim C7: when the scan completes, a non-empty violation list `vs` makes
`main` print the header `STALE files detected:` followed by one
`- <path>: <reason>` line per entry of `vs` in scan order and exit 1; an
empty list prints the single success line and exits 0; and every reason is
literally `missing` or `>7d old`. -/
theorem c7_theorem (now : Int) (fs : String → FileState)
    (vs : List (String × String)) (h : runScan now fs TARGETS = Except.ok vs) :
    (vs = [] → pyMain now fs =
      Except.ok { output := ["All target files are fresh enough."],
                  exitCode := 0 }) ∧
    (vs ≠ [] → pyMain now fs =
      Except.ok { output := "STALE files detected:" ::
                    vs.map (fun v => "- " ++ v.1 ++ ": " ++ v.2),
                  exitCode := 1 }) ∧
    (∀ v ∈ vs, v.2 = "missing" ∨ v.2 = ">7d old") := by
  have hm : pyMain now fs = Except.ok (report vs) := by
    unfold pyMain
    rw [h]
  refine ⟨?_, ?_, (runScan_ok now fs TARGETS vs h).2⟩
  · intro hv
    rw [hm, hv]
    rfl
  · intro hv
    rw [hm]
    unfold report
    rw [if_neg hv]

/-- Claim C7, witness: the theorem over the all-missing file system — both
targets missing, the header plus two `missing` lines, exit code 1. -/
theorem c7_witness :
    pyMain 0 fsAllMissing =
      Except.ok { output := "STALE files detected:" ::
                    vsMissing.map (fun v => "- " ++ v.1 ++ ": " ++ v.2),
                  exitCode := 1 } ∧
    (∀ v ∈ vsMissing, v.2 = "missing" ∨ v.2 = ">7d old") :=
  ⟨(c7_theorem 0 fsAllMissing vsMissing rfl).2.1 (by decide),
   (c7_theorem 0 fsAllMissing vsMissing rfl).2.2⟩

/-- Claim C8: each target contributes at most one violation entry, labelled
with that target's own path, and a completed scan of `TARGETS` never contains
two entries for the same target. -/
theorem c8_theorem (now : Int) (fs : String → FileState) (t : String)
    (f : FileState) (r vs : List (String × String)) :
    (checkTarget now t f = Except.ok r →
      r.length ≤ 1 ∧ ∀ v ∈ r, v.1 = t) ∧
    (runScan now fs TARGETS = Except.ok vs → (vs.map Prod.fst).Nodup) := by
  constructor
  · intro h
    rcases checkTarget_shape now t f r h with hv | hv | hv <;> subst hv <;> simp
  · intro h
    exact List.Nodup.sublist (runScan_ok now fs TARGETS vs h).1 (by decide)

/-- Claim C8, witness: the theorem at the all-missing file system — the one
`missing` entry for target `a` and, over `TARGETS`, no duplicated path in the
violation list. -/
theorem c8_witness :
    ([("a", "missing")].length ≤ 1 ∧
      ∀ v ∈ [("a", "missing")], v.1 = "a") ∧
    (vsMissing.map Prod.fst).Nodup :=
  ⟨(c8_theorem 0 fsAllMissing "a" (fsAllMissing "a")
      [("a", "missing")] vsMissing).1 rfl,
   (c8_theorem 0 fsAllMissing "a" (fsAllMissing "a")
      [("a", "missing")] vsMissing).2 rfl⟩

/-- `dropSpaces` removes an all-whitespace prefix. -/
lemma dropSpaces_decomp (l : List Char) :
    ∃ ws, l = ws ++ dropSpaces l ∧ ∀ c ∈ ws, isPySpace c = true := by
  induction l with
  | nil => exact ⟨[], rfl, by simp⟩
  | cons c cs ih =>
    by_cases hc : isPySpace c
    · obtain ⟨ws, hw, hall⟩ := ih
      refine ⟨c :: ws, ?_, ?_⟩
      · simp only [dropSpaces, hc, if_true, List.cons_append]
        exact congrArg (c :: ·) hw
      · intro x hx
        rcases List.mem_cons.mp hx with hx | hx
        · rw [hx]; exact hc
        · exact hall x hx
    · refine ⟨[], ?_, by simp⟩
      simp [dropSpaces, hc]

/-- A successful `matchDate` splits its input into the ten-character date
token and the rest. -/
lemma matchDate_decomp (cs raw rest : List Char)
    (h : matchDate cs = some (raw, rest)) :
    cs = raw ++ rest ∧ isDateToken raw = true := by
  unfold matchDate at h
  split at h
  · rename_i y1 y2 y3 y4 s1 m1 m2 s2 d1 d2 rest'
    split at h
    · rename_i hcond
      injection h with h
      injection h with h1 h2
      subst h1
      subst h2
      exact ⟨rfl, by simpa [isDateToken] using hcond⟩
    · cases h
  · cases h

/-- A successful `matchLabel` splits its input into one of the two labels and
the rest. -/
lemma matchLabel_decomp (cs r1 : List Char) (h : matchLabel cs = some r1) :
    cs = labelJP ++ r1 ∨ cs = labelEN ++ r1 := by
  unfold matchLabel at h
  split at h
  · rename_i htake
    injection h with h
    subst h
    left
    conv_lhs => rw [← List.take_append_drop 3 cs]
    rw [htake]
  · split at h
    · rename_i htake
      injection h with h
      subst h
      right
      conv_lhs => rw [← List.take_append_drop 12 cs]
      rw [htake]
    · cases h

/-- A successful anchored match decomposes its input as
label, whitespace, separator, whitespace, date token, remainder. -/
lemma matchAt_decomp (cs raw : List Char) (h : matchAt cs = some raw) :
    ∃ label ws1 sep ws2 tail,
      cs = label ++ ws1 ++ sep :: (ws2 ++ (raw ++ tail)) ∧
      (label = labelJP ∨ label = labelEN) ∧
      (∀ c ∈ ws1, isPySpace c = true) ∧
      (sep = ':' ∨ sep = '：') ∧
      (∀ c ∈ ws2, isPySpace c = true) ∧
      isDateToken raw = true := by
  unfold matchAt at h
  cases hl : matchLabel cs with
  | none => simp [hl] at h
  | some r1 =>
    rw [hl] at h
    simp only [Option.some_bind] at h
    cases hs : matchSep (dropSpaces r1) with
    | none => simp [hs] at h
    | some r4 =>
      rw [hs] at h
      simp only [Option.some_bind] at h
      cases hm : matchDate r4 with
      | none => simp [hm] at h
      | some pr =>
        obtain ⟨raw', rest⟩ := pr
        rw [hm] at h
        simp only [Option.map_some'] at h
        injection h with h
        subst h
        obtain ⟨ws1, hw1, hall1⟩ := dropSpaces_decomp r1
        obtain ⟨hdd, htok⟩ := matchDate_decomp _ _ _ hm
        cases hd : dropSpaces r1 with
        | nil => rw [hd] at hs; cases hs
        | cons c r3 =>
          rw [hd] at hs
          simp only [matchSep] at hs
          by_cases hc : (c == ':' || c == '：') = true
          · rw [if_pos hc] at hs
            injection hs with hs
            obtain ⟨ws2, hw2, hall2⟩ := dropSpaces_decomp r3
            have hr1 : r1 = ws1 ++ (c :: r3) := by rw [hw1, hd]
            have hr3 : r3 = ws2 ++ (raw' ++ rest) := by
              rw [hw2, hs, hdd]
            have hsep : c = ':' ∨ c = '：' := by
              rcases Bool.or_eq_true_iff.mp hc with h | h
              · exact Or.inl (by simpa using h)
              · exact Or.inr (by simpa using h)
            rcases matchLabel_decomp cs r1 hl with hcs | hcs
            · exact ⟨labelJP, ws1, c, ws2, rest, by
                rw [hcs, hr1, hr3]; simp, Or.inl rfl, hall1, hsep, hall2, htok⟩
            · exact ⟨labelEN, ws1, c, ws2, rest, by
                rw [hcs, hr1, hr3]; simp, Or.inr rfl, hall1, hsep, hall2, htok⟩
          · rw [if_neg hc] at hs
            cases hs

/-- A successful search decomposes the text into a prefix and a suffix at
whose head the pattern matches. -/
lemma searchISO_decomp (text raw : List Char) (h : searchISO text = some raw) :
    ∃ pre suf, text = pre ++ suf ∧ matchAt suf = some raw := by
  induction text with
  | nil => cases h
  | cons c cs ih =>
    unfold searchISO at h
    cases hm : matchAt (c :: cs) with
    | some r =>
      rw [hm] at h
      injection h with h
      subst h
      exact ⟨[], c :: cs, rfl, hm⟩
    | none =>
      rw [hm] at h
      obtain ⟨pre, suf, hp, hs⟩ := ih h
      exact ⟨c :: pre, suf, by rw [hp]; rfl, hs⟩

/-- A position at which the pattern matches is found by the search whatever
text precedes it (possibly as an even earlier match). -/
lemma searchISO_append (pre cs : List Char) (h : (matchAt cs).isSome = true) :
    (searchISO (pre ++ cs)).isSome = true := by
  induction pre with
  | nil =>
    cases cs with
    | nil => exact absurd h (by decide)
    | cons c cs' =>
      simp only [List.nil_append, searchISO]
      cases hm : matchAt (c :: cs') with
      | some r => simp
      | none => rw [hm] at h; cases h
  | cons a pre ih =>
    simp only [List.cons_append, searchISO]
    cases hm : matchAt (a :: (pre ++ cs)) with
    | some r => simp
    | none => exact ih

/-- Claim C9, amended: a date marker is recognized only when a
case-sensitively matched label token (`作成日` or `Last Updated`) is
followed — with optional whitespace permitted before and after the
separator — by a colon-like separator (ASCII `:` or full-width `：`) and a
date token; and such a match is found anywhere in the document, not only at
the start of a line. -/
theorem c9_theorem (text raw pre cs : List Char) :
    (searchISO text = some raw →
      ∃ pre0 label ws1 sep ws2 tail,
        text = pre0 ++ (label ++ ws1 ++ sep :: (ws2 ++ (raw ++ tail))) ∧
        (label = labelJP ∨ label = labelEN) ∧
        (∀ c0 ∈ ws1, isPySpace c0 = true) ∧
        (sep = ':' ∨ sep = '：') ∧
        (∀ c0 ∈ ws2, isPySpace c0 = true) ∧
        isDateToken raw = true) ∧
    ((matchAt cs).isSome = true → (searchISO (pre ++ cs)).isSome = true) := by
  constructor
  · intro h
    obtain ⟨pre0, suf, hp, hm⟩ := searchISO_decomp text raw h
    obtain ⟨label, ws1, sep, ws2, tail, hsuf, hlab, h1, hsep, h2, htok⟩ :=
      matchAt_decomp suf raw hm
    exact ⟨pre0, label, ws1, sep, ws2, tail, by rw [hp, hsuf],
      hlab, h1, hsep, h2, htok⟩
  · exact searchISO_append pre cs

/-- The sample text `x Last Updated: 2024-01-01`, whose marker does not start
the document. -/
def sampleText : List Char := "x Last Updated: 2024-01-01".toList

/-- The date token recognized in `sampleText`. -/
def sampleRaw : List Char := "2024-01-01".toList

/-- The sample suffix `作成日:2024-01-01`, at whose head the pattern
matches. -/
def sampleSuffix : List Char := "作成日:2024-01-01".toList

/-- The sample prefix `ab` placed before `sampleSuffix`. -/
def samplePrefix : List Char := "ab".toList

/-- Claim C9, witness: the amended theorem at the text
`x Last Updated: 2024-01-01` (decomposition of the recognized marker) and at
prefix `ab` before `作成日:2024-01-01` (recognition away from line start). -/
theorem c9_witness :
    (∃ pre0 label ws1 sep ws2 tail,
        sampleText =
          pre0 ++ (label ++ ws1 ++ sep ::
            (ws2 ++ (sampleRaw ++ tail))) ∧
        (label = labelJP ∨ label = labelEN) ∧
        (∀ c0 ∈ ws1, isPySpace c0 = true) ∧
        (sep = ':' ∨ sep = '：') ∧
        (∀ c0 ∈ ws2, isPySpace c0 = true) ∧
        isDateToken sampleRaw = true) ∧
    (searchISO (samplePrefix ++ sampleSuffix)).isSome = true :=
  ⟨(c9_theorem sampleText sampleRaw [] []).1 (by decide),
   (c9_theorem [] [] samplePrefix sampleSuffix).2 (by decide)⟩

end CheckReview
